import Mathlib

/-!
# TVA Boom Deployment Calculator — serverless endpoints, verified model

Shallow embedding of the two serverless request handlers of the repository:

* `src/api/generate-report.js` — handler with `exponentialBackoff`;
* `src/unnamed/part_000` — handler with `fetchWithBackoff` and explicit
  credential validation, interval parsing and per-field `isNaN` coercion.

JavaScript numbers are modelled as `Option ℚ`, where `none` stands for the
non-finite values (`NaN`, and `Infinity` arising from division by zero);
both serialize to JSON `null` under `JSON.stringify`, which is the only way
they are observed by the persistence service.  Asynchronous fetches are
modelled by a trace `Nat → Except String Response`: the `n`-th outbound call
either rejects with an error message or resolves with a `Response`.
-/

deriving instance DecidableEq for Except

namespace BoomCalc

/-! ## List/string utilities (JS `String.prototype` operations) -/

/-- `leadsWith p l` — `p` occurs at the very start of `l`. -/
def leadsWith [DecidableEq α] : List α → List α → Bool
  | [], _ => true
  | _ :: _, [] => false
  | a :: p, b :: l => a = b && leadsWith p l

/-- `occursIn p l` — the pattern `p` occurs contiguously somewhere in `l`.
Models JavaScript `String.prototype.includes` (and substring search). -/
def occursIn [DecidableEq α] (p : List α) : List α → Bool
  | [] => leadsWith p []
  | a :: l => leadsWith p (a :: l) || occursIn p l

/-- Remove the first occurrence of `c`; models `String.prototype.replace(c, '')`
with a single-character pattern, which replaces only the first match. -/
def removeFirst [DecidableEq α] (c : α) : List α → List α
  | [] => []
  | a :: l => if a = c then l else a :: removeFirst c l

/-- Substring check on `String`, via `occursIn` on the character data. -/
def strOccursIn (pat s : String) : Bool := occursIn pat.data s.data

/-- `split(' ')[0]`: the characters before the first space. -/
def firstWord (s : String) : String := ⟨s.data.takeWhile (fun c => c ≠ ' ')⟩

/-! ## JS numeric coercions

`parseFloat`, `parseInt` and the `Number(…)` coercion used by arithmetic
operators, restricted to plain decimal notation (optional sign, digits,
optional fraction) — the only shapes this application produces.  `none`
denotes `NaN`. -/

/-- Numeric value of a list of decimal digit characters. -/
def digitsVal (ds : List Char) : Nat :=
  ds.foldl (fun a c => 10 * a + (c.toNat - 48)) 0

/-- Value of the fractional digits `ds` appearing after a decimal point. -/
def fracVal (ds : List Char) : ℚ :=
  (digitsVal ds : ℚ) / (10 ^ ds.length)

/-- Strip an optional leading sign; returns (negative?, rest). -/
def stripSign : List Char → Bool × List Char
  | '-' :: l => (true, l)
  | '+' :: l => (false, l)
  | l => (false, l)

/-- Digits after the decimal point, if the input starts with `'.'`. -/
def fracDigits (l : List Char) : List Char :=
  match l with
  | c :: r => if c = '.' then r.takeWhile Char.isDigit else []
  | [] => []

/-- Model of JavaScript `parseFloat` on decimal inputs: skip leading spaces,
optional sign, leading digits, optional `.digits`; everything after the
numeric prefix is ignored.  `none` when no digits are found (`NaN`). -/
def parseFloat (s : String) : Option ℚ :=
  let cs := s.data.dropWhile (fun c => c = ' ')
  let sc := stripSign cs
  let intDs := sc.2.takeWhile Char.isDigit
  let fracDs := fracDigits (sc.2.dropWhile Char.isDigit)
  if intDs = [] ∧ fracDs = [] then none
  else
    let v : ℚ := (digitsVal intDs : ℚ) + fracVal fracDs
    some (if sc.1 then -v else v)

/-- Model of JavaScript `parseInt` (default radix) on decimal inputs: skip
leading spaces, optional sign, leading digits; `none` when no digits (`NaN`). -/
def parseInt (s : String) : Option Int :=
  let cs := s.data.dropWhile (fun c => c = ' ')
  let sc := stripSign cs
  let ds := sc.2.takeWhile Char.isDigit
  if ds = [] then none
  else some (if sc.1 then -(digitsVal ds : Int) else (digitsVal ds : Int))

/-- Model of the `Number(…)` coercion applied by JS arithmetic operators to a
string: trimmed empty string is `0`; otherwise the whole trimmed string must
be a decimal numeral, else `NaN`. -/
def jsNumberOfString (s : String) : Option ℚ :=
  let t := (s.data.dropWhile (fun c => c = ' ')).reverse.dropWhile (fun c => c = ' ') |>.reverse
  if t = [] then some 0
  else
    let sc := stripSign t
    let intDs := sc.2.takeWhile Char.isDigit
    let rest := sc.2.dropWhile Char.isDigit
    let fracDs := fracDigits rest
    let restOk := match rest with
      | [] => true
      | '.' :: r => r.dropWhile Char.isDigit = []
      | _ => false
    if restOk = true ∧ ¬(intDs = [] ∧ fracDs = []) then
      let v : ℚ := (digitsVal intDs : ℚ) + fracVal fracDs
      some (if sc.1 then -v else v)
    else none

/-! ## Request fields and JS values -/

/-- The request body destructured by both handlers.  Textual fields may be
absent (`none` = JS `undefined`); the cascade flag is used only for truthiness
so it is modelled as `Bool`. -/
structure Req where
  current : Option String
  angle : Option String
  riverWidth : Option String
  riverMile : Option String
  calculatedBoomLength : Option String
  tension : Option String
  interval : Option String
  driftTime : Option String
  isCascade : Bool
  segments : Option String
  anchors : Option String
  anchorDetailsText : Option String
deriving DecidableEq

/-- Template-literal interpolation of a possibly-absent string:
`${undefined}` renders as `"undefined"`. -/
def jsStr : Option String → String
  | none => "undefined"
  | some s => s

/-- JS `v || dflt` on a possibly-absent string: `undefined` and `""` are falsy. -/
def jsOr (v : Option String) (dflt : String) : String :=
  match v with
  | none => dflt
  | some s => if s = "" then dflt else s

/-- `parseFloat` applied to a possibly-absent field; `parseFloat(undefined)`
coerces the argument to the string `"undefined"`. -/
def jsParseFloat (v : Option String) : Option ℚ := parseFloat (jsStr v)

/-- `parseInt` applied to a possibly-absent field. -/
def jsParseInt (v : Option String) : Option Int := parseInt (jsStr v)

/-- `Number(…)` coercion of a possibly-absent field (`Number(undefined) = NaN`). -/
def jsNumber (v : Option String) : Option ℚ :=
  match v with
  | none => none
  | some s => jsNumberOfString s

/-- JS `/` on two coerced numbers.  Division by zero produces `Infinity`,
which (like `NaN`) serializes to JSON `null`; both are folded into `none`. -/
def jsDiv (a b : Option ℚ) : Option ℚ :=
  match a, b with
  | some x, some y => if y = 0 then none else some (x / y)
  | _, _ => none

/-- `parseFloat` applied to a JS *number* (`parseFloat(String(x))`): the
identity on finite numbers, `NaN` on non-finite input. -/
def parseFloatOfNum (q : Option ℚ) : Option ℚ :=
  match q with
  | none => none
  | some x => some x

/-! ## Backoff Invoker, variant 1: `exponentialBackoff` (generate-report.js 21–33)

```js
const exponentialBackoff = async (func, maxRetries = 5, delay = 1000) => {
    for (let i = 0; i < maxRetries; i++) {
        try { return await func(); }
        catch (error) {
            if (i < maxRetries - 1) {
                await new Promise(res => setTimeout(res, delay * (2 ** i)));
            } else { throw error; }
        }
    }
};
```

The operation is a trace `op : Nat → Except ε α` giving the outcome of each
attempt.  The result records the value returned (or error thrown), with
`none` for the `undefined` returned when the loop body never runs, together
with the number of attempts executed and the total simulated delay. -/

structure BackoffResult (ε α : Type) where
  result : Option (Except ε α)
  calls : Nat
  totalDelay : Nat
deriving DecidableEq

/-- The loop of `exponentialBackoff`: `i` is the loop counter, `fuel` the
number of iterations left (`maxRetries - i`).  `i < maxRetries - 1` holds
exactly when at least one iteration remains after this one (`fuel ≠ 1`). -/
def ebLoop (op : Nat → Except ε α) (delay : Nat) : Nat → Nat → BackoffResult ε α
  | _, 0 => ⟨none, 0, 0⟩
  | i, fuel + 1 =>
    match op i with
    | .ok a => ⟨some (.ok a), 1, 0⟩
    | .error e =>
      if fuel = 0 then ⟨some (.error e), 1, 0⟩
      else
        let r := ebLoop op delay (i + 1) fuel
        ⟨r.result, r.calls + 1, r.totalDelay + delay * 2 ^ i⟩

/-- `exponentialBackoff(func, maxRetries, delay)`. -/
def exponentialBackoff (op : Nat → Except ε α) (maxRetries delay : Nat) :
    BackoffResult ε α :=
  ebLoop op delay 0 maxRetries

/-- Whether an attempt outcome is a thrown error. -/
def isErr : Except ε α → Bool
  | .error _ => true
  | .ok _ => false

/-! ## Backoff Invoker, variant 2: `fetchWithBackoff` (part_000 59–79)

```js
const fetchWithBackoff = async (url, options, retries = 3, delay = 1000) => {
    try {
        const response = await fetch(url, options);
        if (!response.ok) {
            if (response.status === 429 && retries > 0) {
                await new Promise(resolve => setTimeout(resolve, delay));
                return fetchWithBackoff(url, options, retries - 1, delay * 2);
            }
            throw new Error(`HTTP error! status: ${response.status}`);
        }
        return response;
    } catch (error) {
        if (retries > 0) {
            await new Promise(resolve => setTimeout(resolve, delay));
            return fetchWithBackoff(url, options, retries - 1, delay * 2);
        }
        throw error;
    }
};
```

Note `return fetchWithBackoff(...)` (without `await`) hands the inner promise
straight to the caller, so the recursion is plain tail recursion.  The
synchronous `throw` of the HTTP error *is* caught by the same invocation's
`catch`, so a non-429 error status with retries left is retried exactly like
a network error. -/

/-- A resolved `fetch` response, as far as the handlers inspect it:
`ok`, `status`, `statusText`, the body text read by `.text()`, and the
value of `json().candidates?.[0]?.content?.parts?.[0]?.text` (if present). -/
structure Response where
  ok : Bool
  status : Nat
  statusText : String
  bodyText : String
  genText : Option String
deriving DecidableEq

/-- Result of a `fetchWithBackoff` call: the resolved response or the thrown
error's message, plus the number of `fetch` calls and total simulated delay. -/
structure FWBResult where
  result : Except String Response
  calls : Nat
  totalDelay : Nat
deriving DecidableEq

/-- Account for one failed attempt before a recursion: one more call, and the
current `delay` slept before recursing. -/
def fwbStep (r : FWBResult) (delay : Nat) : FWBResult :=
  ⟨r.result, r.calls + 1, r.totalDelay + delay⟩

/-- `fetchWithBackoff`, with `f n` the outcome of the `n`-th `fetch`.  The
cases are grouped by the JS `retries > 0` tests: with retries left, a 429
response, any other error status (whose thrown `Error` is caught by the same
invocation's catch) and a rejected fetch all sleep and recurse; with none
left, the failure is (re)thrown. -/
def fwbAux (f : Nat → Except String Response) : Nat → Nat → Nat → FWBResult
  | n, 0, _ =>
    match f n with
    | .ok r =>
      if r.ok then ⟨.ok r, 1, 0⟩
      else
        -- a 429 with retries = 0 also reaches the `throw new Error(...)`,
        -- and the catch rethrows it
        ⟨.error ("HTTP error! status: " ++ toString r.status), 1, 0⟩
    | .error msg => ⟨.error msg, 1, 0⟩
  | n, rs + 1, delay =>
    match f n with
    | .ok r =>
      if r.ok then ⟨.ok r, 1, 0⟩
      else if r.status = 429 then
        -- rate-limit branch (lines 63–67)
        fwbStep (fwbAux f (n + 1) rs (delay * 2)) delay
      else
        -- `throw new Error(...)` is caught by this invocation's catch,
        -- which retries since retries > 0 (lines 68, 72–76)
        fwbStep (fwbAux f (n + 1) rs (delay * 2)) delay
    | .error _ => fwbStep (fwbAux f (n + 1) rs (delay * 2)) delay

/-- Top-level `fetchWithBackoff(url, options, retries, delay)`. -/
def fetchWithBackoff (f : Nat → Except String Response) (retries delay : Nat) :
    FWBResult :=
  fwbAux f 0 retries delay

/-- A `fetch` outcome that `fetchWithBackoff` treats as a failure: a rejected
promise, or a resolved response with `ok` false. -/
def fetchFails : Except String Response → Bool
  | .error _ => true
  | .ok r => !r.ok

/-- The message of the error `fetchWithBackoff` raises for a failed outcome. -/
def failMsg : Except String Response → String
  | .error msg => msg
  | .ok r => "HTTP error! status: " ++ toString r.status

/-! ## Configuration -/

/-- The four service credentials, read from the process environment.  A
missing variable is `none`; part_000's truthiness check also rejects `""`. -/
structure Env where
  googleApiKey : Option String
  geminiApiKey : Option String
  airtableApiKey : Option String
  airtableBaseId : Option String
  airtableTableId : Option String
deriving DecidableEq

/-- JS falsiness of a possibly-absent string (`undefined` and `""`). -/
def falsy : Option String → Bool
  | none => true
  | some s => s = ""

/-! ## Prompt construction -/

/-- The prompt template of generate-report.js (lines 58–86). -/
def grPrompt (req : Req) : String :=
  "\n            You are a subject matter expert on boom deployment for environmental response.\n            Your task is to generate a professional, concise, and easy-to-read report\n            on a geographic response strategy for a diesel fuel spill.\n\n            The report should be a single, well-structured paragraph that includes the following information:\n            - A professional salutation.\n            - A summary of the deployment conditions (river mile, current, river width, boom angle, drift time if available).\n            - The calculated boom length required and the estimated tension.\n            - The recommended anchor interval and total number of anchors.\n            - A clear recommendation on whether a single boom or a cascade booming system is required, and if so, how many segments.\n            - A professional closing.\n\n            Here are the details for the report:\n            - River Mile: "
    ++ jsOr req.riverMile "Not specified"
    ++ "\n            - River Current: " ++ jsStr req.current
    ++ " knots\n            - River Width: " ++ jsStr req.riverWidth
    ++ " ft\n            - Boom Angle: " ++ jsStr req.angle
    ++ " degrees\n            - Calculated Boom Length: " ++ jsStr req.calculatedBoomLength
    ++ " ft\n            - Estimated Tension: " ++ jsStr req.tension
    ++ " lbs\n            - Recommended Anchor Interval: " ++ jsStr req.interval
    ++ "\n            - Drift Time (for 100ft): " ++ jsOr req.driftTime "Not measured"
    ++ " seconds\n            - Is Cascade Booming System Recommended?: "
    ++ (if req.isCascade then "Yes" else "No")
    ++ "\n            - Total segments (if cascade): "
    ++ (if req.isCascade then jsStr req.segments else "1")
    ++ "\n            - Total anchors required: " ++ jsStr req.anchors
    ++ "\n            - Anchor details: " ++ jsStr req.anchorDetailsText
    ++ "\n            - Spill Type: Diesel Fuel\n            - Location: Tennessee Valley Authority waterway\n        "

/-- The cascade clause of part_000's prompt, present only when `isCascade`. -/
def cascadeClause (segments : Option String) : String :=
  "The deployment will utilize a cascade booming system with " ++ jsStr segments
    ++ " segments."

/-- The `userQuery` template of part_000 (lines 35–54). -/
def userQuery (req : Req) : String :=
  "Write a detailed operational plan for a deployment report using the following format and data:\n        \n        Deployment Report\n        Prepared for: TVA Emergency Management\n        Subject: Geographic Response Strategy for River Mile "
    ++ jsStr req.riverMile
    ++ "\n        \n        Operational Plan:\n        \n        Location: River Mile "
    ++ jsStr req.riverMile
    ++ "\n        River Width: " ++ jsStr req.riverWidth
    ++ " feet\n        Drift Time: " ++ jsStr req.driftTime
    ++ " seconds\n        Current: " ++ jsStr req.current
    ++ " knots\n        Max Boom Deflection Angle: " ++ jsStr req.angle
    ++ " degrees\n        Boom Required: " ++ jsStr req.calculatedBoomLength
    ++ " feet\n        Estimated Tension: " ++ jsStr req.tension
    ++ " pounds per 100 ft of boom profile\n        Recommended Anchor Interval: "
    ++ jsStr req.interval
    ++ "\n        \n        " ++ jsStr req.anchorDetailsText
    ++ " \n        \n        "
    ++ (if req.isCascade then cascadeClause req.segments else "")
    ++ " The deployment will use a 22-pound Danforth anchor. Please ensure all measurements and values in the report are presented in imperial units (e.g., feet, knots, pounds). Do not include any mention of a diagram, sketch, or formal email headings like \"Prepared For\" or \"Subject\" in the report text itself."

/-! ## Persistence payloads -/

/-- A JSON cell value in an Airtable record, as produced by `JSON.stringify`:
a string, a finite number, `null` (also the serialization of `NaN` and
`Infinity`), a boolean, or an omitted key (`undefined` property). -/
inductive CellVal where
  | str (s : String)
  | num (q : ℚ)
  | intNum (i : Int)
  | null
  | boolean (b : Bool)
  | omitted
deriving DecidableEq

/-- Wire value of a JS number (`NaN`/`Infinity` serialize to `null`). -/
def numCell : Option ℚ → CellVal
  | some q => .num q
  | none => .null

/-- Wire value of a JS integer (`parseInt` result). -/
def intCell : Option Int → CellVal
  | some i => .intNum i
  | none => .null

/-- Wire value of a raw possibly-absent string field (`undefined` → omitted). -/
def rawCell : Option String → CellVal
  | some s => .str s
  | none => .omitted

/-- Models `isNaN(x) ? null : x` — the identity on the `Option ℚ` encoding. -/
def nanToNull : Option ℚ → Option ℚ
  | none => none
  | some q => some q

/-- The interval parsing of part_000 (lines 104–112): `replace('+','')`
replaces only the first `'+'`; `split(' ')[0]` is the first word. -/
def intervalValueForAirtable (interval : String) : Option ℚ :=
  if strOccursIn "+" interval then parseFloat ⟨removeFirst '+' interval.data⟩
  else if strOccursIn "per" interval then parseFloat (firstWord interval)
  else parseFloat interval

/-- The Airtable record fields built by generate-report.js (lines 112–129). -/
structure GrFields where
  report : String
  current : CellVal
  angle : CellVal
  riverWidth : CellVal
  riverMile : CellVal
  boomLength : CellVal
  segLength : CellVal
  anchorInterval : CellVal
  driftTime : CellVal
  segments : CellVal
  anchors : CellVal
deriving DecidableEq

/-- `"Drift Time": parseFloat(driftTime) || null` — both `NaN` and `0` are
falsy, so a parsed `0` also becomes `null`. -/
def driftTimeOrNull (v : Option String) : Option ℚ :=
  match jsParseFloat v with
  | none => none
  | some q => if q = 0 then none else some q

def grFieldsOf (req : Req) (generatedText : String) : GrFields where
  report := generatedText
  current := numCell (jsParseFloat req.current)
  angle := numCell (jsParseFloat req.angle)
  riverWidth := numCell (jsParseFloat req.riverWidth)
  riverMile := rawCell req.riverMile
  boomLength := numCell (jsParseFloat req.calculatedBoomLength)
  -- `parseFloat(calculatedBoomLength / segments)`: numeric division of the
  -- coerced operands, then parseFloat of the resulting number
  segLength := numCell (parseFloatOfNum
    (jsDiv (jsNumber req.calculatedBoomLength) (jsNumber req.segments)))
  anchorInterval := intCell (jsParseInt req.interval)
  driftTime := numCell (driftTimeOrNull req.driftTime)
  segments := if req.isCascade then rawCell req.segments else .num 1
  anchors := rawCell req.anchors

/-- The Airtable record fields built by part_000 (lines 115–133).  `interval`
is the string already found present (line 106 would have thrown otherwise);
`today` is the `new Date().toISOString().split('T')[0]` clock read. -/
structure P000Fields where
  riverMile : CellVal
  current : CellVal
  boomRequired : CellVal
  angle : CellVal
  tension : CellVal
  anchors : CellVal
  anchorInterval : CellVal
  riverWidth : CellVal
  driftTime : CellVal
  generatedReport : String
  reportDate : String
  cascade : Bool
  segments : CellVal
deriving DecidableEq

def p000FieldsOf (req : Req) (interval : String) (generatedText today : String) :
    P000Fields where
  riverMile := .str (jsOr req.riverMile "N/A")
  current := numCell (nanToNull (jsParseFloat req.current))
  boomRequired := numCell (nanToNull (jsParseFloat req.calculatedBoomLength))
  angle := numCell (nanToNull (jsParseFloat req.angle))
  tension := rawCell req.tension
  anchors := numCell (nanToNull (jsParseFloat req.anchors))
  anchorInterval := numCell (nanToNull (intervalValueForAirtable interval))
  riverWidth := numCell (nanToNull (jsParseFloat req.riverWidth))
  driftTime := rawCell req.driftTime
  generatedReport := generatedText
  reportDate := today
  cascade := req.isCascade
  segments := if req.isCascade then numCell (jsParseFloat req.segments) else .null

/-! ## Request handlers -/

/-- Response body of the generate-report.js handler. -/
inductive GrBody where
  | methodNotAllowed
  | success (reportText : String)
  | failure (errMessage : String)
deriving DecidableEq

/-- Outcome of one generate-report.js request: HTTP status, body, the number
of outbound calls to each service, and the record sent to Airtable (if the
handler reached that step). -/
structure GrResult where
  status : Nat
  body : GrBody
  genCalls : Nat
  airCalls : Nat
  airtableBody : Option GrFields
deriving DecidableEq

/-- The extracted `candidates?.[0]?...text` with the handler's
`if (!generatedText) throw` guard: absent or `""` both fail. -/
def genTextOf (r : Response) : Option String :=
  match r.genText with
  | some t => if t = "" then none else some t
  | none => none

/-- Error message for Airtable failure (generate-report.js line 144). -/
def grAirFailMsg (r : Response) : String :=
  "Failed to save report to Airtable: " ++ toString r.status ++ " "
    ++ r.statusText ++ " - " ++ r.bodyText

/-- The generate-report.js handler (lines 36–153).  `env` is read only to
build the request URLs (`key=${GOOGLE_API_KEY}` even when undefined): the
handler performs no credential validation.  `gen`/`air` are the outcome
traces of the fetches to the generation and persistence services. -/
def grHandler (method : String) (req : Req) (_env : Env)
    (gen air : Nat → Except String Response) : GrResult :=
  if method ≠ "POST" then ⟨405, .methodNotAllowed, 0, 0, none⟩
  else
    let g := exponentialBackoff gen 5 1000
    match g.result with
    | none => ⟨500, .failure "Cannot read properties of undefined (reading 'json')",
        g.calls, 0, none⟩  -- unreachable: maxRetries = 5 > 0
    | some (.error msg) => ⟨500, .failure msg, g.calls, 0, none⟩
    | some (.ok resp) =>
      -- the Google response's `ok` is never checked
      match genTextOf resp with
      | none => ⟨500, .failure "Failed to generate report text from Google AI.",
          g.calls, 0, none⟩
      | some text =>
        let payload := grFieldsOf req text
        let a := exponentialBackoff air 5 1000
        match a.result with
        | none => ⟨500, .failure "Cannot read properties of undefined (reading 'ok')",
            g.calls, a.calls, none⟩  -- unreachable
        | some (.error msg) => ⟨500, .failure msg, g.calls, a.calls, some payload⟩
        | some (.ok ar) =>
          if ar.ok then ⟨200, .success text, g.calls, a.calls, some payload⟩
          else ⟨500, .failure (grAirFailMsg ar), g.calls, a.calls, some payload⟩

/-- Response body of the part_000 handler. -/
inductive P000Body where
  | methodNotAllowed
  | missingEnv
  | success (reportText : String)
  | failure (errMessage : String)
deriving DecidableEq

/-- Outcome of one part_000 request. -/
structure P000Result where
  status : Nat
  body : P000Body
  genCalls : Nat
  airCalls : Nat
  airtableBody : Option P000Fields
deriving DecidableEq

/-- Fallback text when the generation response has no usable candidate text
(part_000 line 94); `""` is falsy so it also falls back. -/
def p000FallbackText : String := "Could not generate report. Please try again."

def p000GenText (r : Response) : String :=
  match r.genText with
  | some t => if t = "" then p000FallbackText else t
  | none => p000FallbackText

/-- Message of the TypeError thrown by `interval.includes('+')` when the
`interval` field is absent (part_000 line 106). -/
def p000IntervalTypeError : String :=
  "Cannot read properties of undefined (reading 'includes')"

/-- The part_000 handler (lines 8–151): method check, credential validation,
generation fetch via `fetchWithBackoff`, interval parsing and field coercion,
persistence fetch via `fetchWithBackoff`, success envelope. -/
def p000Handler (method : String) (req : Req) (env : Env)
    (gen air : Nat → Except String Response) (today : String) : P000Result :=
  if method ≠ "POST" then ⟨405, .methodNotAllowed, 0, 0, none⟩
  else if falsy env.airtableApiKey || falsy env.airtableBaseId
      || falsy env.airtableTableId || falsy env.geminiApiKey then
    ⟨500, .missingEnv, 0, 0, none⟩
  else
    let g := fetchWithBackoff gen 3 1000
    match g.result with
    | .error msg => ⟨500, .failure msg, g.calls, 0, none⟩
    | .ok resp =>
      let text := p000GenText resp
      match req.interval with
      | none => ⟨500, .failure p000IntervalTypeError, g.calls, 0, none⟩
      | some interval =>
        let payload := p000FieldsOf req interval text today
        let a := fetchWithBackoff air 3 1000
        match a.result with
        | .error msg => ⟨500, .failure msg, g.calls, a.calls, some payload⟩
        | .ok _ =>
          -- the resolved response is discarded; fetchWithBackoff only
          -- resolves with `ok` responses
          ⟨200, .success text, g.calls, a.calls, some payload⟩

/-! ## Concrete fixtures (spec §8 end-to-end scenario and service traces) -/

/-- The end-to-end scenario request body of spec §8. -/
def sampleReq : Req :=
  ⟨some "2.5", some "30", some "300", some "45", some "350", some "1200",
    some "150+", some "40", true, some "2", some "5",
    some "Anchor points every 100 ft."⟩

/-- A configuration with all four credentials present. -/
def envOK : Env := ⟨some "gk", some "gmk", some "ak", some "base", some "tbl"⟩

/-- A configuration with every credential absent. -/
def envAbsent : Env := ⟨none, none, none, none, none⟩

/-- A generation-service response carrying candidate text. -/
def okGenResp : Response := ⟨true, 200, "OK", "", some "Deployment report body."⟩

/-- A generation service that succeeds on every call. -/
def okGen : Nat → Except String Response := fun _ => .ok okGenResp

/-- A persistence service that succeeds on every call. -/
def okAir : Nat → Except String Response := fun _ => .ok ⟨true, 200, "OK", "", none⟩

/-- A persistence service that fails (HTTP 500) on every call. -/
def failAir : Nat → Except String Response :=
  fun _ => .ok ⟨false, 500, "Internal Server Error", "insufficient permissions", none⟩

/-- The §8 scenario request with the cascade flag off. -/
def sampleReqOff : Req := { sampleReq with isCascade := false }

/-- The §8 scenario request without its interval field. -/
def reqNoInterval : Req := { sampleReq with interval := none }

/-- A request full of absent and non-numeric fields (interval present). -/
def reqJunk : Req :=
  ⟨some "N/A", some "abc", none, none, some "abc", none, some "TBD", none,
    false, none, some "many", none⟩

/-- A non-cascade request whose rendered fields are digit strings (free of
the characters of "cascade"). -/
def plainReq : Req :=
  ⟨some "2.5", some "30", some "300", some "45", some "350", some "1200",
    some "150+", some "40", false, some "2", some "5", some "100"⟩

/-- A rendered request field that is nonempty and shares no character with
the pattern `"cascade"` (so no occurrence of the pattern can overlap it). -/
def plainField (s : String) : Prop :=
  s.data ≠ [] ∧ ∀ a ∈ s.data, a ∉ "cascade".data

instance (s : String) : Decidable (plainField s) :=
  inferInstanceAs (Decidable (_ ∧ _))

/-! ## Lemmas about `exponentialBackoff` -/

theorem ebLoop_first_success {ε α : Type} (op : Nat → Except ε α) (d : Nat) (a : α) :
    ∀ k i fuel, (∀ j, j < k → isErr (op (i + j)) = true) → op (i + k) = .ok a →
      k < fuel →
      ebLoop op d i fuel = ⟨some (.ok a), k + 1, ∑ j in Finset.range k, d * 2 ^ (i + j)⟩ := by
  intro k
  induction k with
  | zero =>
    intro i fuel _ hs hk
    obtain ⟨f, rfl⟩ : ∃ f, fuel = f + 1 := ⟨fuel - 1, by omega⟩
    simp only [Nat.add_zero] at hs
    simp [ebLoop, hs]
  | succ k ih =>
    intro i fuel hf hs hk
    obtain ⟨f, rfl⟩ : ∃ f, fuel = f + 1 := ⟨fuel - 1, by omega⟩
    have h0 := hf 0 (Nat.succ_pos k)
    cases hop : op (i + 0) with
    | ok b => rw [hop] at h0; simp [isErr] at h0
    | error e =>
      rw [Nat.add_zero] at hop
      have hrec := ih (i + 1) f
        (fun j hj => by
          have := hf (j + 1) (by omega)
          rwa [show i + (j + 1) = i + 1 + j by omega] at this)
        (by rwa [show i + 1 + k = i + (k + 1) by omega])
        (by omega)
      have hfne : f ≠ 0 := by omega
      have hsum : ∑ j in Finset.range (k + 1), d * 2 ^ (i + j) =
          ∑ j in Finset.range k, d * 2 ^ (i + 1 + j) + d * 2 ^ i := by
        rw [Finset.sum_range_succ' (fun j => d * 2 ^ (i + j)) k]
        congr 1
        · exact Finset.sum_congr rfl fun j _ => by
            rw [show i + (j + 1) = i + 1 + j by omega]
      simp only [ebLoop, hop, hfne, if_false, hrec, hsum]

theorem ebLoop_all_fail {ε α : Type} (op : Nat → Except ε α) (d : Nat) (e : ε) :
    ∀ fuel i, (∀ j, j < fuel → isErr (op (i + j)) = true) →
      op (i + (fuel - 1)) = .error e → 0 < fuel →
      ebLoop op d i fuel =
        ⟨some (.error e), fuel, ∑ j in Finset.range (fuel - 1), d * 2 ^ (i + j)⟩ := by
  intro fuel
  induction fuel with
  | zero => omega
  | succ f ih =>
    intro i hf hl _
    by_cases hf0 : f = 0
    · subst hf0
      simp only [Nat.add_zero, Nat.sub_self] at hl ⊢
      simp [ebLoop, hl]
    · have h0 := hf 0 (Nat.succ_pos f)
      cases hop : op (i + 0) with
      | ok b => rw [hop] at h0; simp [isErr] at h0
      | error e0 =>
        rw [Nat.add_zero] at hop
        have hrec := ih (i + 1)
          (fun j hj => by
            have := hf (j + 1) (by omega)
            rwa [show i + (j + 1) = i + 1 + j by omega] at this)
          (by rwa [show i + 1 + (f - 1) = i + (f + 1 - 1) by omega])
          (by omega)
        have hsum : ∑ j in Finset.range (f + 1 - 1), d * 2 ^ (i + j) =
            ∑ j in Finset.range (f - 1), d * 2 ^ (i + 1 + j) + d * 2 ^ i := by
          rw [show f + 1 - 1 = (f - 1) + 1 by omega,
            Finset.sum_range_succ' (fun j => d * 2 ^ (i + j)) (f - 1)]
          congr 1
          · exact Finset.sum_congr rfl fun j _ => by
              rw [show i + (j + 1) = i + 1 + j by omega]
        simp only [ebLoop, hop, hf0, if_false, hrec, hsum]

theorem ebLoop_result_isSome {ε α : Type} (op : Nat → Except ε α) (d : Nat) :
    ∀ fuel i, 0 < fuel → (ebLoop op d i fuel).result.isSome = true := by
  intro fuel
  induction fuel with
  | zero => omega
  | succ f ih =>
    intro i _
    cases hop : op i with
    | ok a => simp [ebLoop, hop]
    | error e =>
      by_cases hf0 : f = 0
      · simp [ebLoop, hop, hf0]
      · simp only [ebLoop, hop, hf0, if_false]
        exact ih (i + 1) (by omega)

theorem ebLoop_ok_sound {ε α : Type} (op : Nat → Except ε α) (d : Nat) (a : α) :
    ∀ fuel i, (ebLoop op d i fuel).result = some (.ok a) → ∃ k, op k = .ok a := by
  intro fuel
  induction fuel with
  | zero => intro i h; simp [ebLoop] at h
  | succ f ih =>
    intro i h
    cases hop : op i with
    | ok b =>
      refine ⟨i, ?_⟩
      simp [ebLoop, hop] at h
      rw [hop, h]
    | error e =>
      by_cases hf0 : f = 0
      · simp [ebLoop, hop, hf0] at h
      · simp only [ebLoop, hop, hf0, if_false] at h
        exact ih (i + 1) h

/-! ## Lemmas about `fetchWithBackoff` -/

theorem fwbAux_first_success (f : Nat → Except String Response) (resp : Response)
    (hok : resp.ok = true) :
    ∀ k n retries d, (∀ j, j < k → fetchFails (f (n + j)) = true) →
      f (n + k) = .ok resp → k ≤ retries →
      fwbAux f n retries d = ⟨.ok resp, k + 1, ∑ j in Finset.range k, d * 2 ^ j⟩ := by
  intro k
  induction k with
  | zero =>
    intro n retries d _ hs _
    rw [Nat.add_zero] at hs
    cases retries <;> simp [fwbAux, hs, hok]
  | succ k ih =>
    intro n retries d hf hs hk
    obtain ⟨rs, rfl⟩ : ∃ rs, retries = rs + 1 := ⟨retries - 1, by omega⟩
    have h0 := hf 0 (Nat.succ_pos k)
    rw [Nat.add_zero] at h0
    have hrec := ih (n + 1) rs (d * 2)
      (fun j hj => by
        have := hf (j + 1) (by omega)
        rwa [show n + (j + 1) = n + 1 + j by omega] at this)
      (by rwa [show n + 1 + k = n + (k + 1) by omega])
      (by omega)
    have hsum : ∑ j in Finset.range k, d * 2 * 2 ^ j + d =
        ∑ j in Finset.range (k + 1), d * 2 ^ j := by
      rw [Finset.sum_range_succ' (fun j => d * 2 ^ j) k]
      congr 1
      · exact Finset.sum_congr rfl fun j _ => by ring
      · rw [pow_zero, Nat.mul_one]
    cases hop : f n with
    | ok r =>
      rw [hop] at h0
      have hr : r.ok = false := by simpa [fetchFails] using h0
      simp only [fwbAux, hop, hr, Bool.false_eq_true, if_false, ite_self, hrec,
        fwbStep, hsum]
    | error msg =>
      simp only [fwbAux, hop, hrec, fwbStep, hsum]

theorem fwbAux_all_fail (f : Nat → Except String Response) :
    ∀ retries n d, (∀ j, j ≤ retries → fetchFails (f (n + j)) = true) →
      fwbAux f n retries d =
        ⟨.error (failMsg (f (n + retries))), retries + 1,
          ∑ j in Finset.range retries, d * 2 ^ j⟩ := by
  intro retries
  induction retries with
  | zero =>
    intro n d hf
    have h0 := hf 0 (Nat.le_refl 0)
    rw [Nat.add_zero] at h0 ⊢
    cases hop : f n with
    | ok r =>
      rw [hop] at h0
      have hr : r.ok = false := by simpa [fetchFails] using h0
      simp [fwbAux, hop, hr, failMsg]
    | error msg => simp [fwbAux, hop, failMsg]
  | succ rs ih =>
    intro n d hf
    have h0 := hf 0 (Nat.zero_le _)
    rw [Nat.add_zero] at h0
    have hrec := ih (n + 1) (d * 2)
      (fun j hj => by
        have := hf (j + 1) (by omega)
        rwa [show n + (j + 1) = n + 1 + j by omega] at this)
    have hsum : ∑ j in Finset.range rs, d * 2 * 2 ^ j + d =
        ∑ j in Finset.range (rs + 1), d * 2 ^ j := by
      rw [Finset.sum_range_succ' (fun j => d * 2 ^ j) rs]
      congr 1
      · exact Finset.sum_congr rfl fun j _ => by ring
      · rw [pow_zero, Nat.mul_one]
    have hidx : n + 1 + rs = n + (rs + 1) := by omega
    cases hop : f n with
    | ok r =>
      rw [hop] at h0
      have hr : r.ok = false := by simpa [fetchFails] using h0
      simp only [fwbAux, hop, hr, Bool.false_eq_true, if_false, ite_self, hrec,
        fwbStep, hidx, hsum]
    | error msg =>
      simp only [fwbAux, hop, hrec, fwbStep, hidx, hsum]

theorem fwbAux_ok_sound (f : Nat → Except String Response) (resp : Response) :
    ∀ retries n d, (fwbAux f n retries d).result = .ok resp →
      ∃ k, f k = .ok resp ∧ resp.ok = true := by
  intro retries
  induction retries with
  | zero =>
    intro n d h
    cases hop : f n with
    | ok r =>
      by_cases hr : r.ok
      · simp only [fwbAux, hop, hr, if_true] at h
        cases h
        exact ⟨n, hop, hr⟩
      · simp [fwbAux, hop, hr] at h
    | error msg => simp [fwbAux, hop] at h
  | succ rs ih =>
    intro n d h
    cases hop : f n with
    | ok r =>
      by_cases hr : r.ok
      · simp only [fwbAux, hop, hr, if_true] at h
        cases h
        exact ⟨n, hop, hr⟩
      · simp only [fwbAux, hop, hr, Bool.false_eq_true, if_false, ite_self,
          fwbStep] at h
        exact ih (n + 1) (d * 2) h
    | error msg =>
      simp only [fwbAux, hop, fwbStep] at h
      exact ih (n + 1) (d * 2) h

theorem fwbAux_all_fail_top (f : Nat → Except String Response) (r d : Nat)
    (hf : ∀ j, j ≤ r → fetchFails (f j) = true) :
    fetchWithBackoff f r d =
      ⟨.error (failMsg (f r)), r + 1, ∑ j in Finset.range r, d * 2 ^ j⟩ := by
  have h := fwbAux_all_fail f r 0 d (fun j hj => by simpa using hf j hj)
  rw [fetchWithBackoff, h, Nat.zero_add]

theorem fwbAux_calls_pos (f : Nat → Except String Response) :
    ∀ retries n d, 1 ≤ (fwbAux f n retries d).calls := by
  intro retries
  induction retries with
  | zero =>
    intro n d
    cases hop : f n with
    | ok r => by_cases hr : r.ok <;> simp [fwbAux, hop, hr]
    | error msg => simp [fwbAux, hop]
  | succ rs ih =>
    intro n d
    cases hop : f n with
    | ok r =>
      by_cases hr : r.ok
      · simp [fwbAux, hop, hr]
      · simp only [fwbAux, hop, hr, Bool.false_eq_true, if_false, ite_self,
          fwbStep]
        omega
    | error msg =>
      simp only [fwbAux, hop, fwbStep]
      omega

theorem fwbAux_congr (f g : Nat → Except String Response) :
    ∀ retries n d, (∀ m, n ≤ m → f m = g m) →
      fwbAux f n retries d = fwbAux g n retries d := by
  intro retries
  induction retries with
  | zero =>
    intro n d hfg
    simp only [fwbAux, hfg n (Nat.le_refl n)]
  | succ rs ih =>
    intro n d hfg
    have hrec := ih (n + 1) (d * 2) (fun m hm => hfg m (by omega))
    simp only [fwbAux, hfg n (Nat.le_refl n), hrec]

theorem ebLoop_calls_pos {ε α : Type} (op : Nat → Except ε α) (d : Nat) :
    ∀ fuel i, 0 < fuel → 1 ≤ (ebLoop op d i fuel).calls := by
  intro fuel
  induction fuel with
  | zero => omega
  | succ f ih =>
    intro i _
    cases hop : op i with
    | ok a => simp [ebLoop, hop]
    | error e =>
      by_cases hf0 : f = 0
      · simp [ebLoop, hop, hf0]
      · simp only [ebLoop, hop, hf0, if_false]
        omega

/-- If every attempt in the trace fails, `exponentialBackoff` cannot come
back with an `ok` response whose `ok` flag is set: its result is `some`
outcome that is either an error or a non-ok response. -/
theorem eb_all_fail_no_ok (air : Nat → Except String Response)
    (hair : ∀ i, fetchFails (air i) = true) (m d : Nat) (hm : 0 < m) :
    ∃ x, (exponentialBackoff air m d).result = some x ∧
      ∀ r, x = .ok r → r.ok = false := by
  cases hA : (exponentialBackoff air m d).result with
  | none =>
    have h := ebLoop_result_isSome air d m 0 hm
    rw [show ebLoop air d 0 m = exponentialBackoff air m d from rfl, hA] at h
    simp at h
  | some x =>
    refine ⟨x, rfl, ?_⟩
    rintro r rfl
    have hs : (ebLoop air d 0 m).result = some (.ok r) := hA
    obtain ⟨k, hk⟩ := ebLoop_ok_sound air d r m 0 hs
    have := hair k
    rw [hk] at this
    simpa [fetchFails] using this

/-! ## Lemmas about substring search -/

theorem tw_all {α : Type} (p : α → Bool) :
    ∀ l : List α, (∀ c ∈ l, p c = true) → l.takeWhile p = l := by
  intro l
  induction l with
  | nil => intro _; rfl
  | cons a l ih =>
    intro h
    rw [List.takeWhile_cons, h a (List.mem_cons_self a l), if_pos rfl,
      ih (fun c hc => h c (List.mem_cons_of_mem a hc))]

theorem dw_all {α : Type} (p : α → Bool) :
    ∀ l : List α, (∀ c ∈ l, p c = true) → l.dropWhile p = [] := by
  intro l
  induction l with
  | nil => intro _; rfl
  | cons a l ih =>
    intro h
    rw [List.dropWhile_cons, h a (List.mem_cons_self a l), if_pos rfl]
    exact ih (fun c hc => h c (List.mem_cons_of_mem a hc))

theorem tw_append {α : Type} (p : α → Bool) (a : α) (ha : p a = false) :
    ∀ (l r : List α), (∀ c ∈ l, p c = true) →
      (l ++ a :: r).takeWhile p = l := by
  intro l
  induction l with
  | nil => intro r _; simp [List.takeWhile_cons, ha]
  | cons b l ih =>
    intro r h
    rw [List.cons_append, List.takeWhile_cons, h b (List.mem_cons_self b l),
      if_pos rfl, ih r (fun c hc => h c (List.mem_cons_of_mem b hc))]

theorem dw_append {α : Type} (p : α → Bool) (a : α) (ha : p a = false) :
    ∀ (l r : List α), (∀ c ∈ l, p c = true) →
      (l ++ a :: r).dropWhile p = a :: r := by
  intro l
  induction l with
  | nil => intro r _; simp [List.dropWhile_cons, ha]
  | cons b l ih =>
    intro r h
    rw [List.cons_append, List.dropWhile_cons, h b (List.mem_cons_self b l),
      if_pos rfl]
    exact ih r (fun c hc => h c (List.mem_cons_of_mem b hc))

theorem lw_extend {α : Type} [DecidableEq α] :
    ∀ (p x z : List α), leadsWith p x = true → leadsWith p (x ++ z) = true := by
  intro p
  induction p with
  | nil => intro x z _; rfl
  | cons c p ih =>
    intro x z h
    cases x with
    | nil => simp [leadsWith] at h
    | cons a x' =>
      simp only [leadsWith, Bool.and_eq_true, decide_eq_true_eq] at h
      simp only [List.cons_append, leadsWith, Bool.and_eq_true, decide_eq_true_eq]
      exact ⟨h.1, ih x' z h.2⟩

theorem lw_cut {α : Type} [DecidableEq α] (s y : List α) (hs : s ≠ []) :
    ∀ (p x : List α), (∀ a ∈ s, a ∉ p) →
      leadsWith p (x ++ (s ++ y)) = true → leadsWith p x = true := by
  intro p
  induction p with
  | nil => intro x _ _; rfl
  | cons c p ih =>
    intro x hchar h
    cases x with
    | nil =>
      obtain ⟨b, s', rfl⟩ : ∃ b s', s = b :: s' := by
        cases s with
        | nil => simp at hs
        | cons b s' => exact ⟨b, s', rfl⟩
      simp only [List.nil_append, List.cons_append, leadsWith,
        Bool.and_eq_true, decide_eq_true_eq] at h
      exact absurd (h.1 ▸ List.mem_cons_self c p) (hchar b (List.mem_cons_self b s'))
    | cons a x' =>
      simp only [List.cons_append, leadsWith, Bool.and_eq_true,
        decide_eq_true_eq] at h ⊢
      exact ⟨h.1,
        ih x' (fun a ha hmem => hchar a ha (List.mem_cons_of_mem c hmem)) h.2⟩

theorem occursIn_skip {α : Type} [DecidableEq α] (c : α) (p' y : List α) :
    ∀ s, (∀ a ∈ s, a ∉ c :: p') →
      occursIn (c :: p') (s ++ y) = occursIn (c :: p') y := by
  intro s
  induction s with
  | nil => intro _; rfl
  | cons b s' ih =>
    intro hchar
    have hb : (decide (c = b)) = false := by
      refine decide_eq_false fun h => ?_
      exact hchar b (List.mem_cons_self b s') (h ▸ List.mem_cons_self c p')
    simp only [List.cons_append, occursIn, leadsWith, hb, Bool.false_and,
      Bool.false_or]
    exact ih (fun a ha => hchar a (List.mem_cons_of_mem b ha))

theorem occursIn_eq_false {α : Type} [DecidableEq α] (c : α) (p' : List α) :
    ∀ l, (∀ a ∈ l, a ∉ c :: p') → occursIn (c :: p') l = false := by
  intro l h
  have hskip := occursIn_skip c p' [] l h
  simpa [occursIn, leadsWith] using hskip

theorem occursIn_append_right {α : Type} [DecidableEq α] (p : List α) :
    ∀ x y, occursIn p y = true → occursIn p (x ++ y) = true := by
  intro x
  induction x with
  | nil => intro y h; simpa using h
  | cons a x' ih =>
    intro y h
    simp only [List.cons_append, occursIn, Bool.or_eq_true]
    exact Or.inr (ih y h)

/-- Split a substring search at a nonempty separator none of whose elements
occurs in the pattern: the pattern occurs in `x ++ s ++ y` iff it occurs in
`x` or in `y`. -/
theorem occursIn_sep {α : Type} [DecidableEq α] (c : α) (p' s : List α)
    (hs : s ≠ []) (hchar : ∀ a ∈ s, a ∉ c :: p') :
    ∀ x y, occursIn (c :: p') (x ++ (s ++ y)) =
      (occursIn (c :: p') x || occursIn (c :: p') y) := by
  intro x y
  induction x with
  | nil =>
    simp only [List.nil_append, occursIn_skip c p' y s hchar, occursIn, leadsWith,
      Bool.false_or]
  | cons a x' ih =>
    have hE : leadsWith (c :: p') (a :: (x' ++ (s ++ y))) =
        leadsWith (c :: p') (a :: x') := by
      cases hlw : leadsWith (c :: p') (a :: x') with
      | true => exact lw_extend (c :: p') (a :: x') (s ++ y) hlw
      | false =>
        cases h2 : leadsWith (c :: p') (a :: (x' ++ (s ++ y))) with
        | false => rfl
        | true =>
          exact absurd (lw_cut s y hs (c :: p') (a :: x') hchar h2)
            (by simp [hlw])
    simp only [List.cons_append, List.append_eq, occursIn, ih, hE, Bool.or_assoc]

/-! ## Lemmas about the numeric coercions -/

/-- A digit character differs from any non-digit character. -/
theorem char_ne_of_digit {a : Char} (h : a.isDigit = true) {b : Char}
    (hb : b.isDigit = false) : a ≠ b := by
  intro e
  rw [e, hb] at h
  cases h

theorem fracVal_nil : fracVal [] = 0 := by
  simp [fracVal, digitsVal]

theorem stripSign_digit {a : Char} (l : List Char) (h : a.isDigit = true) :
    stripSign (a :: l) = (false, a :: l) := by
  have h1 : a ≠ '-' := char_ne_of_digit h (by decide)
  have h2 : a ≠ '+' := char_ne_of_digit h (by decide)
  simp [stripSign, h1, h2]

/-- `parseFloat` on a pure digit string is its numeral value. -/
theorem parseFloat_digits (l : List Char) (hne : l ≠ [])
    (hd : ∀ c ∈ l, c.isDigit = true) :
    parseFloat ⟨l⟩ = some ((digitsVal l : ℚ)) := by
  obtain ⟨a, l', rfl⟩ : ∃ a l', l = a :: l' := by
    cases l with
    | nil => simp at hne
    | cons a l' => exact ⟨a, l', rfl⟩
  have ha := hd a (List.mem_cons_self a l')
  have hsp : (decide (a = ' ')) = false :=
    decide_eq_false (char_ne_of_digit ha (by decide))
  simp only [parseFloat, List.dropWhile_cons, hsp, Bool.false_eq_true, if_false,
    stripSign_digit l' ha, tw_all Char.isDigit _ hd, dw_all Char.isDigit _ hd,
    fracDigits, fracVal_nil, add_zero]
  rw [if_neg (by simp)]

/-- `parseFloat` on a digit string followed by a non-digit, non-dot character
and anything after it is still the leading numeral. -/
theorem parseFloat_digits_append (l : List Char) (b : Char) (r : List Char)
    (hne : l ≠ []) (hd : ∀ c ∈ l, c.isDigit = true)
    (hb : b.isDigit = false) (hbdot : b ≠ '.') :
    parseFloat ⟨l ++ b :: r⟩ = some ((digitsVal l : ℚ)) := by
  obtain ⟨a, l', rfl⟩ : ∃ a l', l = a :: l' := by
    cases l with
    | nil => simp at hne
    | cons a l' => exact ⟨a, l', rfl⟩
  have ha := hd a (List.mem_cons_self a l')
  have hsp : (decide (a = ' ')) = false :=
    decide_eq_false (char_ne_of_digit ha (by decide))
  have htw := tw_append Char.isDigit b hb (a :: l') r hd
  have hdw := dw_append Char.isDigit b hb (a :: l') r hd
  simp only [List.cons_append, List.dropWhile_cons, hsp, Bool.false_eq_true,
    if_false] at htw hdw ⊢
  have hfd : fracDigits (b :: r) = [] := by simp [fracDigits, hbdot]
  simp only [parseFloat, List.dropWhile_cons, hsp, Bool.false_eq_true, if_false,
    stripSign_digit (l' ++ b :: r) ha, htw, hdw, hfd, fracVal_nil, add_zero]
  rw [if_neg (by simp)]

/-- `parseInt` on a pure digit string is its numeral value. -/
theorem parseInt_digits (l : List Char) (hne : l ≠ [])
    (hd : ∀ c ∈ l, c.isDigit = true) :
    parseInt ⟨l⟩ = some ((digitsVal l : Int)) := by
  obtain ⟨a, l', rfl⟩ : ∃ a l', l = a :: l' := by
    cases l with
    | nil => simp at hne
    | cons a l' => exact ⟨a, l', rfl⟩
  have ha := hd a (List.mem_cons_self a l')
  have hsp : (decide (a = ' ')) = false :=
    decide_eq_false (char_ne_of_digit ha (by decide))
  simp only [parseInt, List.dropWhile_cons, hsp, Bool.false_eq_true, if_false,
    stripSign_digit l' ha, tw_all Char.isDigit _ hd]
  rw [if_neg (by simp)]

/-- `parseInt` on a digit string followed by a non-digit character and
anything after it is still the leading numeral. -/
theorem parseInt_digits_append (l : List Char) (b : Char) (r : List Char)
    (hne : l ≠ []) (hd : ∀ c ∈ l, c.isDigit = true) (hb : b.isDigit = false) :
    parseInt ⟨l ++ b :: r⟩ = some ((digitsVal l : Int)) := by
  obtain ⟨a, l', rfl⟩ : ∃ a l', l = a :: l' := by
    cases l with
    | nil => simp at hne
    | cons a l' => exact ⟨a, l', rfl⟩
  have ha := hd a (List.mem_cons_self a l')
  have hsp : (decide (a = ' ')) = false :=
    decide_eq_false (char_ne_of_digit ha (by decide))
  have htw := tw_append Char.isDigit b hb (a :: l') r hd
  simp only [List.cons_append, List.dropWhile_cons, hsp, Bool.false_eq_true,
    if_false] at htw ⊢
  simp only [parseInt, List.dropWhile_cons, hsp, Bool.false_eq_true, if_false,
    stripSign_digit (l' ++ b :: r) ha, htw]
  rw [if_neg (by simp)]

/-- Removing the first `'+'` from `l ++ "+"` gives back `l` when `l` is
free of `'+'`. -/
theorem removeFirst_append_self {α : Type} [DecidableEq α] (ch : α) :
    ∀ l : List α, (∀ c ∈ l, c ≠ ch) → removeFirst ch (l ++ [ch]) = l := by
  intro l
  induction l with
  | nil => simp [removeFirst]
  | cons a l ih =>
    intro h
    simp only [List.cons_append, List.append_eq, removeFirst,
      h a (List.mem_cons_self a l), if_false]
    rw [ih (fun c hc => h c (List.mem_cons_of_mem a hc))]

/-- Two strings with the same character data are equal. -/
theorem strEq (a b : String) (h : a.data = b.data) : a = b := by
  cases a; cases b; exact congrArg String.mk h

/-! ## Claims about the Backoff Invoker -/

/-- Claim C1: for every fallible operation whose failures occur at fewer
attempts than the retry budget, both Backoff Invoker implementations return
the first subsequent successful result, and the total simulated delay equals
the sum of the geometric backoff series (base delay doubling after each
failed attempt). -/
theorem backoff_first_success {ε α : Type} (op : Nat → Except ε α)
    (k m d : Nat) (a : α)
    (hk : k < m) (hf : ∀ i, i < k → isErr (op i) = true) (hs : op k = .ok a)
    (f : Nat → Except String Response) (k2 r d2 : Nat) (resp : Response)
    (hk2 : k2 < r) (hf2 : ∀ i, i < k2 → fetchFails (f i) = true)
    (hs2 : f k2 = .ok resp) (hok : resp.ok = true) :
    exponentialBackoff op m d =
      ⟨some (.ok a), k + 1, ∑ i in Finset.range k, d * 2 ^ i⟩ ∧
    fetchWithBackoff f r d2 =
      ⟨.ok resp, k2 + 1, ∑ i in Finset.range k2, d2 * 2 ^ i⟩ := by
  constructor
  · have h := ebLoop_first_success op d a k 0 m
      (fun j hj => by simpa using hf j hj) (by simpa using hs) hk
    have hsum0 : ∑ j in Finset.range k, d * 2 ^ (0 + j) =
        ∑ j in Finset.range k, d * 2 ^ j :=
      Finset.sum_congr rfl fun j _ => by rw [Nat.zero_add]
    rw [exponentialBackoff, h, hsum0]
  · have h := fwbAux_first_success f resp hok k2 0 r d2
      (fun j hj => by simpa using hf2 j hj) (by simpa using hs2) (by omega)
    rw [fetchWithBackoff, h]

theorem backoff_first_success_witness :
    exponentialBackoff
        (fun i => if i < 2 then Except.error "boom" else Except.ok 7) 5 1000 =
      ⟨some (.ok 7), 2 + 1, ∑ i in Finset.range 2, 1000 * 2 ^ i⟩ ∧
    fetchWithBackoff
        (fun i => if i < 2 then .error "socket hang up"
          else .ok ⟨true, 200, "OK", "", some "report"⟩) 3 1000 =
      ⟨.ok ⟨true, 200, "OK", "", some "report"⟩, 2 + 1,
        ∑ i in Finset.range 2, 1000 * 2 ^ i⟩ :=
  backoff_first_success _ 2 5 1000 7 (by omega)
    (by intro i hi; interval_cases i <;> decide) (by decide)
    _ 2 3 1000 ⟨true, 200, "OK", "", some "report"⟩ (by omega)
    (by intro i hi; interval_cases i <;> decide) (by decide) (by decide)

/-- Claim C2: when the operation fails at every attempt up to the retry
budget, both Backoff Invoker implementations raise exactly one error, whose
content is the last attempt's error (for `fetchWithBackoff`, the message of
the last attempt's failure). -/
theorem backoff_exhausted_raises_last_error {ε α : Type} (op : Nat → Except ε α)
    (m d : Nat) (e : ε)
    (hm : 0 < m) (hf : ∀ i, i < m → isErr (op i) = true)
    (hl : op (m - 1) = .error e)
    (f : Nat → Except String Response) (r d2 : Nat)
    (hf2 : ∀ i, i ≤ r → fetchFails (f i) = true) :
    exponentialBackoff op m d =
      ⟨some (.error e), m, ∑ i in Finset.range (m - 1), d * 2 ^ i⟩ ∧
    fetchWithBackoff f r d2 =
      ⟨.error (failMsg (f r)), r + 1, ∑ i in Finset.range r, d2 * 2 ^ i⟩ := by
  constructor
  · have h := ebLoop_all_fail op d e m 0
      (fun j hj => by simpa using hf j hj) (by simpa using hl) hm
    have hsum0 : ∑ j in Finset.range (m - 1), d * 2 ^ (0 + j) =
        ∑ j in Finset.range (m - 1), d * 2 ^ j :=
      Finset.sum_congr rfl fun j _ => by rw [Nat.zero_add]
    rw [exponentialBackoff, h, hsum0]
  · exact fwbAux_all_fail_top f r d2 hf2

theorem backoff_exhausted_raises_last_error_witness :
    exponentialBackoff (fun i => (Except.error (toString i) : Except String Nat))
        5 1000 =
      ⟨some (.error "4"), 5, ∑ i in Finset.range 4, 1000 * 2 ^ i⟩ ∧
    fetchWithBackoff (fun _ => .ok ⟨false, 503, "Service Unavailable", "", none⟩)
        3 1000 =
      ⟨.error (failMsg (.ok ⟨false, 503, "Service Unavailable", "", none⟩)), 3 + 1,
        ∑ i in Finset.range 3, 1000 * 2 ^ i⟩ :=
  backoff_exhausted_raises_last_error
    (fun i => (Except.error (toString i) : Except String Nat)) 5 1000 "4"
    (by omega) (fun i _ => rfl) (by decide)
    (fun _ => .ok ⟨false, 503, "Service Unavailable", "", none⟩) 3 1000
    (fun _ _ => rfl)

/-- Claim C3 counterexample: `exponentialBackoff`, as used in
generate-report.js, wraps a `fetch` whose promise *resolves* (does not
throw) on an HTTP 429, so a generation service answering 429, 429, 200
yields a single outbound call returning the 429 response — not three calls
and a success.  The rate-limit response is not treated as retryable there. -/
theorem eb_429_not_retried_cex :
    exponentialBackoff
        (fun i => (Except.ok (ε := String)
          (if i < 2 then (⟨false, 429, "Too Many Requests", "", none⟩ : Response)
            else ⟨true, 200, "OK", "", some "report"⟩))) 5 1000 =
      ⟨some (.ok ⟨false, 429, "Too Many Requests", "", none⟩), 1, 0⟩ ∧
    (exponentialBackoff
        (fun i => (Except.ok (ε := String)
          (if i < 2 then (⟨false, 429, "Too Many Requests", "", none⟩ : Response)
            else ⟨true, 200, "OK", "", some "report"⟩))) 5 1000).calls ≠ 3 := by
  exact ⟨by decide, by decide⟩

/-- Claim C3 (amended): in `fetchWithBackoff`, a 429 response with retries
remaining is handled identically to a network-level failure — the invoker
behaves the same whether attempt `n` resolved with a 429 or rejected — and
the scenario «429 twice, then 200» performs exactly three outbound calls and
returns the 200 response.  (In `exponentialBackoff` composed with `fetch`,
a 429 resolution is returned as the result after one call; see the
counterexample.) -/
theorem fwb_429_retryable
    (f g : Nat → Except String Response) (n rs d : Nat) (r : Response)
    (msg : String)
    (hfr : f n = .ok r) (hok : r.ok = false) (h429 : r.status = 429)
    (hg : g n = .error msg) (hagree : ∀ m, n < m → f m = g m) :
    fwbAux f n (rs + 1) d = fwbAux g n (rs + 1) d ∧
    fetchWithBackoff
        (fun i => if i < 2 then .ok ⟨false, 429, "Too Many Requests", "", none⟩
          else .ok ⟨true, 200, "OK", "", some "report"⟩) 3 1000 =
      ⟨.ok ⟨true, 200, "OK", "", some "report"⟩, 3, 1000 + 2000⟩ := by
  constructor
  · have hcong := fwbAux_congr f g rs (n + 1) (d * 2)
      (fun m hm => hagree m (by omega))
    simp only [fwbAux, hfr, hok, Bool.false_eq_true, if_false, h429, if_true,
      hg, hcong]
  · decide

theorem fwb_429_retryable_witness :
    fwbAux (fun i => if i = 0 then .ok ⟨false, 429, "Too Many Requests", "", none⟩
        else .ok ⟨true, 200, "OK", "", some "report"⟩) 0 (2 + 1) 1000 =
      fwbAux (fun i => if i = 0 then .error "socket hang up"
        else .ok ⟨true, 200, "OK", "", some "report"⟩) 0 (2 + 1) 1000 ∧
    fetchWithBackoff
        (fun i => if i < 2 then .ok ⟨false, 429, "Too Many Requests", "", none⟩
          else .ok ⟨true, 200, "OK", "", some "report"⟩) 3 1000 =
      ⟨.ok ⟨true, 200, "OK", "", some "report"⟩, 3, 1000 + 2000⟩ :=
  fwb_429_retryable _ _ 0 2 1000 ⟨false, 429, "Too Many Requests", "", none⟩
    "socket hang up" (by decide) (by decide) (by decide) (by decide)
    (by intro m hm; rw [if_neg (by omega), if_neg (by omega)])

/-- Claim C10: calling `exponentialBackoff` with a retry budget of 0 skips
the loop entirely: the operation is never executed (0 calls), no delay is
slept, and the function returns `undefined` (`none`) — neither a result nor
an error. -/
theorem backoff_zero_retries_undefined {ε α : Type} (op : Nat → Except ε α)
    (d : Nat) : exponentialBackoff op 0 d = ⟨none, 0, 0⟩ := rfl

/-! ## Claims about the request handlers -/

/-- Claim C4: whenever report generation succeeds but every persistence
attempt fails, both handlers produce a status-500 failure response and never
a success response — the persistence failure is surfaced, not dropped. -/
theorem persistence_failure_surfaced
    (req : Req) (env : Env) (gen air : Nat → Except String Response)
    (today t : String) (r0 : Response)
    (hg : gen 0 = .ok r0) (hok : r0.ok = true) (ht : r0.genText = some t)
    (htne : t ≠ "")
    (hair : ∀ i, fetchFails (air i) = true)
    (henv : falsy env.airtableApiKey = false ∧ falsy env.airtableBaseId = false ∧
      falsy env.airtableTableId = false ∧ falsy env.geminiApiKey = false) :
    ((grHandler "POST" req env gen air).status = 500 ∧
      ∀ s, (grHandler "POST" req env gen air).body ≠ .success s) ∧
    ((p000Handler "POST" req env gen air today).status = 500 ∧
      ∀ s, (p000Handler "POST" req env gen air today).body ≠ .success s) := by
  have hgen : exponentialBackoff gen 5 1000 = ⟨some (.ok r0), 1, 0⟩ := by
    have h := ebLoop_first_success gen 1000 r0 0 0 5
      (fun j hj => absurd hj (by omega)) (by simpa using hg) (by omega)
    simpa [exponentialBackoff] using h
  have hgt : genTextOf r0 = some t := by simp [genTextOf, ht, htne]
  constructor
  · obtain ⟨x, hA, hx⟩ := eb_all_fail_no_ok air hair 5 1000 (by omega)
    cases x with
    | error msg => simp [grHandler, hgen, hgt, hA]
    | ok ar =>
      have har : ar.ok = false := hx ar rfl
      simp [grHandler, hgen, hgt, hA, har]
  · have hfg : fetchWithBackoff gen 3 1000 = ⟨.ok r0, 1, 0⟩ := by
      have h := fwbAux_first_success gen r0 hok 0 0 3 1000
        (fun j hj => absurd hj (by omega)) (by simpa using hg) (by omega)
      simpa [fetchWithBackoff] using h
    have hfa := fwbAux_all_fail_top air 3 1000 (fun j _ => hair j)
    cases hi : req.interval with
    | none =>
      simp [p000Handler, henv.1, henv.2.1, henv.2.2.1, henv.2.2.2, hfg, hi]
    | some iv =>
      simp [p000Handler, henv.1, henv.2.1, henv.2.2.1, henv.2.2.2, hfg, hi, hfa]

theorem persistence_failure_surfaced_witness :
    ((grHandler "POST" sampleReq envOK okGen failAir).status = 500 ∧
      (grHandler "POST" sampleReq envOK okGen failAir).body ≠
        .success "Deployment report body.") ∧
    ((p000Handler "POST" sampleReq envOK okGen failAir "2026-10-12").status = 500 ∧
      (p000Handler "POST" sampleReq envOK okGen failAir "2026-10-12").body ≠
        .success "Deployment report body.") := by
  have h := persistence_failure_surfaced sampleReq envOK okGen failAir
    "2026-10-12" "Deployment report body." okGenResp (by decide) (by decide)
    (by decide) (by decide) (fun i => rfl)
    ⟨by decide, by decide, by decide, by decide⟩
  exact ⟨⟨h.1.1, h.1.2 "Deployment report body."⟩,
    ⟨h.2.1, h.2.2 "Deployment report body."⟩⟩

/-- Claim C5 counterexample: with every credential absent from the
configuration, the generate-report.js handler still attempts the outbound
generation call (one call, not zero) and even reports success — not the
claimed fixed 500 response with zero outbound calls.  (That handler reads
the environment only to build its request URLs and never validates it.) -/
theorem gr_missing_env_calls_cex :
    (grHandler "POST" sampleReq envAbsent okGen okAir).genCalls = 1 ∧
    (grHandler "POST" sampleReq envAbsent okGen okAir).status = 200 := by
  constructor <;> decide

/-- Claim C5 (amended): the part_000 handler returns the fixed 500
missing-environment response with zero outbound calls when any of the four
credentials is absent (or empty); the generate-report.js handler performs no
such validation and always attempts at least one generation call. -/
theorem p000_missing_env_fixed_error
    (req : Req) (env : Env) (gen air : Nat → Except String Response)
    (today : String)
    (h : falsy env.airtableApiKey = true ∨ falsy env.airtableBaseId = true ∨
      falsy env.airtableTableId = true ∨ falsy env.geminiApiKey = true) :
    p000Handler "POST" req env gen air today = ⟨500, .missingEnv, 0, 0, none⟩ ∧
    1 ≤ (grHandler "POST" req env gen air).genCalls := by
  constructor
  · rcases h with h | h | h | h <;> simp [p000Handler, h]
  · have hcalls := ebLoop_calls_pos gen 1000 5 0 (by omega)
    rw [show ebLoop gen 1000 0 5 = exponentialBackoff gen 5 1000 from rfl] at hcalls
    cases hA : (exponentialBackoff gen 5 1000).result with
    | none => simpa [grHandler, hA] using hcalls
    | some x =>
      cases x with
      | error msg => simpa [grHandler, hA] using hcalls
      | ok r =>
        cases hgt : genTextOf r with
        | none => simpa [grHandler, hA, hgt] using hcalls
        | some t =>
          cases hB : (exponentialBackoff air 5 1000).result with
          | none => simpa [grHandler, hA, hgt, hB] using hcalls
          | some y =>
            cases y with
            | error msg => simpa [grHandler, hA, hgt, hB] using hcalls
            | ok ar =>
              by_cases har : ar.ok = true <;>
                simpa [grHandler, hA, hgt, hB, har] using hcalls

/-- Claim C6: for a leading decimal numeral `N` (a nonempty digit string),
the interval forms `"N+"`, `"N per <unit>"` and bare `"N"` all parse to `N`:
in part_000's `intervalValueForAirtable` and in generate-report.js's
`parseInt(interval)` alike. -/
theorem interval_parses_leading_number (d u : String)
    (hne : d.data ≠ []) (hd : ∀ c ∈ d.data, c.isDigit = true)
    (hu : ∀ c ∈ u.data, c ≠ '+') :
    intervalValueForAirtable (d ++ "+") = some ((digitsVal d.data : ℚ)) ∧
    intervalValueForAirtable (d ++ " per " ++ u) = some ((digitsVal d.data : ℚ)) ∧
    intervalValueForAirtable d = some ((digitsVal d.data : ℚ)) ∧
    parseInt (d ++ "+") = some ((digitsVal d.data : Int)) ∧
    parseInt (d ++ " per " ++ u) = some ((digitsVal d.data : Int)) ∧
    parseInt d = some ((digitsVal d.data : Int)) := by
  have hplus : ∀ c ∈ d.data, c ≠ '+' :=
    fun c hc => char_ne_of_digit (hd c hc) (by decide)
  have hdataPlus : (d ++ "+") = ⟨d.data ++ '+' :: []⟩ :=
    strEq _ _ (by simp [String.data_append])
  have hdataPer : (d ++ " per " ++ u) =
      ⟨d.data ++ ' ' :: 'p' :: 'e' :: 'r' :: ' ' :: u.data⟩ :=
    strEq _ _ (by simp [String.data_append])
  refine ⟨?_, ?_, ?_, ?_, ?_, ?_⟩
  · have hocc : strOccursIn "+" (d ++ "+") = true := by
      unfold strOccursIn
      rw [hdataPlus]
      exact occursIn_append_right _ d.data _ (by decide)
    have hremove : removeFirst '+' (d ++ "+").data = d.data := by
      rw [hdataPlus]
      exact removeFirst_append_self '+' d.data hplus
    simp only [intervalValueForAirtable, hocc, if_true, hremove]
    exact parseFloat_digits d.data hne hd
  · have hocc1 : strOccursIn "+" (d ++ " per " ++ u) = false := by
      unfold strOccursIn
      rw [hdataPer]
      refine occursIn_eq_false '+' [] _ ?_
      intro a ha
      rcases List.mem_append.mp ha with h | h
      · simpa using hplus a h
      · simp only [List.mem_cons] at h
        rcases h with rfl | rfl | rfl | rfl | rfl | h
        · decide
        · decide
        · decide
        · decide
        · decide
        · simpa using hu a h
    have hocc2 : strOccursIn "per" (d ++ " per " ++ u) = true := by
      unfold strOccursIn
      rw [hdataPer]
      exact occursIn_append_right _ d.data _ (by simp [occursIn, leadsWith])
    have hfw : firstWord (d ++ " per " ++ u) = ⟨d.data⟩ := by
      rw [hdataPer]
      unfold firstWord
      refine congrArg _ ?_
      exact tw_append _ ' ' (by decide) d.data _ (fun c hc => by
        simpa using char_ne_of_digit (hd c hc) (by decide))
    simp only [intervalValueForAirtable, hocc1, Bool.false_eq_true, if_false,
      hocc2, if_true, hfw]
    exact parseFloat_digits d.data hne hd
  · have hocc1 : strOccursIn "+" d = false := by
      unfold strOccursIn
      exact occursIn_eq_false '+' [] d.data (fun a ha => by simpa using hplus a ha)
    have hocc2 : strOccursIn "per" d = false := by
      unfold strOccursIn
      refine occursIn_eq_false 'p' ['e', 'r'] d.data ?_
      intro a ha
      have h1 := char_ne_of_digit (hd a ha) (show ('p').isDigit = false by decide)
      have h2 := char_ne_of_digit (hd a ha) (show ('e').isDigit = false by decide)
      have h3 := char_ne_of_digit (hd a ha) (show ('r').isDigit = false by decide)
      simp [h1, h2, h3]
    simp only [intervalValueForAirtable, hocc1, hocc2, Bool.false_eq_true,
      if_false]
    exact parseFloat_digits d.data hne hd
  · exact parseInt_digits_append d.data '+' [] hne hd (by decide)
  · rw [hdataPer]
    exact parseInt_digits_append d.data ' ' _ hne hd (by decide)
  · exact parseInt_digits d.data hne hd

theorem interval_parses_leading_number_witness :
    intervalValueForAirtable ("200" ++ "+") = some (200 : ℚ) ∧
    intervalValueForAirtable ("1" ++ " per " ++ "100 ft") = some (1 : ℚ) ∧
    intervalValueForAirtable "150" = some (150 : ℚ) ∧
    parseInt ("200" ++ "+") = some (200 : Int) ∧
    parseInt ("1" ++ " per " ++ "100 ft") = some (1 : Int) ∧
    parseInt "150" = some (150 : Int) := by
  have h200 := interval_parses_leading_number "200" "x" (by decide) (by decide)
    (by decide)
  have h1 := interval_parses_leading_number "1" "100 ft" (by decide) (by decide)
    (by decide)
  have h150 := interval_parses_leading_number "150" "x" (by decide) (by decide)
    (by decide)
  refine ⟨?_, ?_, ?_, ?_, ?_, ?_⟩
  · simpa using h200.1
  · simpa using h1.2.1
  · simpa using h150.2.2.1
  · simpa using h200.2.2.2.1
  · simpa using h1.2.2.2.2.1
  · simpa using h150.2.2.2.2.2

theorem p000_missing_env_fixed_error_witness :
    p000Handler "POST" sampleReq envAbsent okGen okAir "2026-10-12" =
      ⟨500, .missingEnv, 0, 0, none⟩ ∧
    1 ≤ (grHandler "POST" sampleReq envAbsent okGen okAir).genCalls :=
  p000_missing_env_fixed_error sampleReq envAbsent okGen okAir "2026-10-12"
    (Or.inl (by decide))

set_option maxRecDepth 16000 in
/-- Claim C7 counterexample: with the cascade flag false, the prompt built by
generate-report.js still contains the text "cascade booming system" — its
template unconditionally instructs the model about the cascade system and
reports the flag's value — so a cascade-specific clause does appear in the
prompt sent to the text-generation service. -/
theorem gr_prompt_mentions_cascade_cex :
    sampleReqOff.isCascade = false ∧
    occursIn "cascade booming system".data (grPrompt sampleReqOff).data = true := by
  constructor
  · rfl
  · decide

set_option maxRecDepth 16000 in
/-- Claim C7 (amended): when the cascade flag is false, both persisted
Segments fields are fixed (null in part_000, the number 1 in
generate-report.js), and part_000's prompt contains no occurrence of
"cascade" (for requests whose rendered fields are nonempty and share no
character with the pattern); generate-report.js's prompt, by contrast,
mentions the cascade booming system unconditionally (see the
counterexample), so only part_000 satisfies the prompt half of the claim. -/
theorem cascade_false_segments_and_prompt
    (req : Req) (iv t today : String)
    (hoff : req.isCascade = false)
    (hrm : plainField (jsStr req.riverMile))
    (hrw : plainField (jsStr req.riverWidth))
    (hdt : plainField (jsStr req.driftTime))
    (hcu : plainField (jsStr req.current))
    (han : plainField (jsStr req.angle))
    (hbl : plainField (jsStr req.calculatedBoomLength))
    (hte : plainField (jsStr req.tension))
    (hivf : plainField (jsStr req.interval))
    (had : plainField (jsStr req.anchorDetailsText)) :
    (p000FieldsOf req iv t today).segments = .null ∧
    (grFieldsOf req t).segments = .num 1 ∧
    occursIn "cascade".data (userQuery req).data = false := by
  refine ⟨by simp [p000FieldsOf, hoff], by simp [grFieldsOf, hoff], ?_⟩
  have sep_rm := occursIn_sep 'c' ['a', 's', 'c', 'a', 'd', 'e']
    (jsStr req.riverMile).data hrm.1 hrm.2
  have sep_rw := occursIn_sep 'c' ['a', 's', 'c', 'a', 'd', 'e']
    (jsStr req.riverWidth).data hrw.1 hrw.2
  have sep_dt := occursIn_sep 'c' ['a', 's', 'c', 'a', 'd', 'e']
    (jsStr req.driftTime).data hdt.1 hdt.2
  have sep_cu := occursIn_sep 'c' ['a', 's', 'c', 'a', 'd', 'e']
    (jsStr req.current).data hcu.1 hcu.2
  have sep_an := occursIn_sep 'c' ['a', 's', 'c', 'a', 'd', 'e']
    (jsStr req.angle).data han.1 han.2
  have sep_bl := occursIn_sep 'c' ['a', 's', 'c', 'a', 'd', 'e']
    (jsStr req.calculatedBoomLength).data hbl.1 hbl.2
  have sep_te := occursIn_sep 'c' ['a', 's', 'c', 'a', 'd', 'e']
    (jsStr req.tension).data hte.1 hte.2
  have sep_iv := occursIn_sep 'c' ['a', 's', 'c', 'a', 'd', 'e']
    (jsStr req.interval).data hivf.1 hivf.2
  have sep_ad := occursIn_sep 'c' ['a', 's', 'c', 'a', 'd', 'e']
    (jsStr req.anchorDetailsText).data had.1 had.2
  rw [show ("cascade".data) = 'c' :: ['a', 's', 'c', 'a', 'd', 'e'] from rfl]
  simp only [userQuery, hoff, Bool.false_eq_true, if_false,
    String.data_append, show ("" : String).data = ([] : List Char) from rfl,
    List.append_assoc, List.nil_append]
  simp only [sep_rm, sep_rw, sep_dt, sep_cu, sep_an, sep_bl, sep_te, sep_iv,
    sep_ad]
  decide

theorem cascade_false_segments_and_prompt_witness :
    (p000FieldsOf plainReq "150+" "Report body." "2026-10-12").segments = .null ∧
    (grFieldsOf plainReq "Report body.").segments = .num 1 ∧
    occursIn "cascade".data (userQuery plainReq).data = false :=
  cascade_false_segments_and_prompt plainReq "150+" "Report body." "2026-10-12"
    rfl (by decide) (by decide) (by decide) (by decide) (by decide) (by decide)
    (by decide) (by decide) (by decide)

/-- Claim C8 counterexample: an absent interval field is not normalized to a
null marker — part_000's `interval.includes('+')` throws a TypeError before
the persistence write, aborting the whole request (status 500, zero Airtable
calls, no record submitted). -/
theorem p000_absent_interval_aborts_cex :
    reqNoInterval.interval = none ∧
    p000Handler "POST" reqNoInterval envOK okGen okAir "2026-10-12" =
      ⟨500, .failure p000IntervalTypeError, 1, 0, none⟩ := by
  exact ⟨rfl, by decide⟩

/-- Claim C8 (amended): provided the interval field is present, no coercion
failure prevents the record from being submitted — both handlers reach their
persistence call on any request — and each numeric-coerced field whose
source is absent or non-numeric is persisted as null (raw fields as an
omitted key).  The exception forcing the amendment is part_000's interval
field: when it is absent the handler throws before the write (see the
counterexample). -/
theorem coercion_failures_nulled
    (req : Req) (iv t today : String)
    (env : Env) (gen air : Nat → Except String Response) (r0 : Response)
    (hiv : req.interval = some iv)
    (hg : gen 0 = .ok r0) (hok : r0.ok = true) (ht : r0.genText = some t)
    (htne : t ≠ "")
    (henv : falsy env.airtableApiKey = false ∧ falsy env.airtableBaseId = false ∧
      falsy env.airtableTableId = false ∧ falsy env.geminiApiKey = false) :
    1 ≤ (p000Handler "POST" req env gen air today).airCalls ∧
    1 ≤ (grHandler "POST" req env gen air).airCalls ∧
    (jsParseFloat req.current = none →
      (p000FieldsOf req iv t today).current = .null) ∧
    (jsParseFloat req.angle = none →
      (p000FieldsOf req iv t today).angle = .null) ∧
    (jsParseFloat req.calculatedBoomLength = none →
      (p000FieldsOf req iv t today).boomRequired = .null) ∧
    (jsParseFloat req.anchors = none →
      (p000FieldsOf req iv t today).anchors = .null) ∧
    (jsParseFloat req.riverWidth = none →
      (p000FieldsOf req iv t today).riverWidth = .null) ∧
    (intervalValueForAirtable iv = none →
      (p000FieldsOf req iv t today).anchorInterval = .null) ∧
    (req.tension = none → (p000FieldsOf req iv t today).tension = .omitted) ∧
    (req.driftTime = none → (p000FieldsOf req iv t today).driftTime = .omitted) ∧
    (jsParseFloat req.current = none → (grFieldsOf req t).current = .null) ∧
    (jsParseInt req.interval = none → (grFieldsOf req t).anchorInterval = .null) := by
  have hgen : exponentialBackoff gen 5 1000 = ⟨some (.ok r0), 1, 0⟩ := by
    have h := ebLoop_first_success gen 1000 r0 0 0 5
      (fun j hj => absurd hj (by omega)) (by simpa using hg) (by omega)
    simpa [exponentialBackoff] using h
  have hgt : genTextOf r0 = some t := by simp [genTextOf, ht, htne]
  have hfg : fetchWithBackoff gen 3 1000 = ⟨.ok r0, 1, 0⟩ := by
    have h := fwbAux_first_success gen r0 hok 0 0 3 1000
      (fun j hj => absurd hj (by omega)) (by simpa using hg) (by omega)
    simpa [fetchWithBackoff] using h
  refine ⟨?_, ?_, fun h => by simp [p000FieldsOf, numCell, nanToNull, h],
    fun h => by simp [p000FieldsOf, numCell, nanToNull, h],
    fun h => by simp [p000FieldsOf, numCell, nanToNull, h],
    fun h => by simp [p000FieldsOf, numCell, nanToNull, h],
    fun h => by simp [p000FieldsOf, numCell, nanToNull, h],
    fun h => by simp [p000FieldsOf, numCell, nanToNull, h],
    fun h => by simp [p000FieldsOf, rawCell, h],
    fun h => by simp [p000FieldsOf, rawCell, h],
    fun h => by simp [grFieldsOf, numCell, h],
    fun h => by simp [grFieldsOf, intCell, h]⟩
  · have hcalls : 1 ≤ (fetchWithBackoff air 3 1000).calls :=
      fwbAux_calls_pos air 3 0 1000
    cases hA : (fetchWithBackoff air 3 1000).result with
    | error msg =>
      simpa [p000Handler, henv.1, henv.2.1, henv.2.2.1, henv.2.2.2, hfg, hiv,
        hA] using hcalls
    | ok ar =>
      simpa [p000Handler, henv.1, henv.2.1, henv.2.2.1, henv.2.2.2, hfg, hiv,
        hA] using hcalls
  · have hcalls := ebLoop_calls_pos air 1000 5 0 (by omega)
    rw [show ebLoop air 1000 0 5 = exponentialBackoff air 5 1000 from rfl]
      at hcalls
    cases hB : (exponentialBackoff air 5 1000).result with
    | none => simpa [grHandler, hgen, hgt, hB] using hcalls
    | some y =>
      cases y with
      | error msg => simpa [grHandler, hgen, hgt, hB] using hcalls
      | ok ar =>
        by_cases har : ar.ok = true <;>
          simpa [grHandler, hgen, hgt, hB, har] using hcalls

theorem coercion_failures_nulled_witness :
    1 ≤ (p000Handler "POST" reqJunk envOK okGen okAir "2026-10-12").airCalls ∧
    1 ≤ (grHandler "POST" reqJunk envOK okGen okAir).airCalls ∧
    (p000FieldsOf reqJunk "TBD" "Deployment report body." "2026-10-12").current
      = .null ∧
    (p000FieldsOf reqJunk "TBD" "Deployment report body." "2026-10-12").boomRequired
      = .null ∧
    (p000FieldsOf reqJunk "TBD" "Deployment report body." "2026-10-12").anchorInterval
      = .null ∧
    (p000FieldsOf reqJunk "TBD" "Deployment report body." "2026-10-12").tension
      = .omitted ∧
    (grFieldsOf reqJunk "Deployment report body.").current = .null ∧
    (grFieldsOf reqJunk "Deployment report body.").anchorInterval = .null := by
  have h := coercion_failures_nulled reqJunk "TBD" "Deployment report body."
    "2026-10-12" envOK okGen okAir okGenResp rfl rfl rfl rfl (by decide)
    ⟨rfl, rfl, rfl, rfl⟩
  exact ⟨h.1, h.2.1, h.2.2.1 (by decide), h.2.2.2.2.1 (by decide),
    h.2.2.2.2.2.2.2.1 (by decide), h.2.2.2.2.2.2.2.2.1 rfl,
    h.2.2.2.2.2.2.2.2.2.2.1 (by decide), h.2.2.2.2.2.2.2.2.2.2.2 (by decide)⟩

/-- Claim C9 counterexample: with the cascade flag false, generate-report.js
still derives the persisted "Seg Length" as boom length divided by segment
count (350 / 2 = 175) instead of omitting the derivation — it is not applied
"only when a cascade booming system applies". -/
theorem seg_length_noncascade_cex :
    sampleReqOff.isCascade = false ∧
    (grFieldsOf sampleReqOff "Deployment report body.").segLength = .num 175 := by
  exact ⟨rfl, by with_unfolding_all rfl⟩

/-- Claim C9 (amended): the persisted "Seg Length" field always equals the
numeric division of the coerced boom length by the coerced segment count,
independent of the cascade flag (part_000's record has no segment-length
field at all). -/
theorem seg_length_unconditional (req : Req) (t : String) (b : Bool) :
    (grFieldsOf { req with isCascade := b } t).segLength =
      numCell (jsDiv (jsNumber req.calculatedBoomLength)
        (jsNumber req.segments)) := by
  cases hq : jsDiv (jsNumber req.calculatedBoomLength) (jsNumber req.segments) with
  | none => simp [grFieldsOf, parseFloatOfNum, hq]
  | some q => simp [grFieldsOf, parseFloatOfNum, hq]

end BoomCalc
